import Mathlib

set_option maxRecDepth 100000

/-!
Verification of the frames module of the ApifyTest actor: the timestamp
candidate selector, the storyboard specification decoder, and the
three-tier frame resolver.

Numbers: the source is JavaScript, where all numeric values are handled as
real numbers; we embed them as rationals (exact arithmetic on the values the
program actually manipulates).  Parsed storyboard fields come from parseInt
and are embedded as integers, with NaN embedded as Option.none.  Fallible
operations return Option.  JavaScript sort is stable for a consistent
comparator; it is embedded as insertion sort, which is stable, over the
"comparator result is nonpositive" relation.
-/

/-- Transcript segment, from types.ts (TranscriptSegment). -/
structure TranscriptSegment where
  text : String
  startSeconds : ℚ
  durationSeconds : ℚ
  startFormatted : String
deriving DecidableEq, Repr

/-- Video chapter, from types.ts (VideoChapter). -/
structure VideoChapter where
  title : String
  startSeconds : ℚ
  startFormatted : String
deriving DecidableEq, Repr

/-- Pixel rectangle used for storyboard tiles, from the inline
tileRect object type. -/
structure TileRect where
  x : ℤ
  y : ℤ
  w : ℤ
  h : ℤ
deriving DecidableEq, Repr

/-- Parsed storyboard tile info, from the frames module (StoryboardTile). -/
structure StoryboardTile where
  url : String
  tileRect : TileRect
  timestampMs : ℤ
deriving DecidableEq, Repr

/-- Internal timestamp with metadata, from the frames module
(TimestampCandidate).  Optional fields are embedded as Option. -/
structure TimestampCandidate where
  seconds : ℚ
  label : String
  relevance : String
  priority : ℕ
  transcriptContext : Option String
  chapterTitle : Option String
deriving DecidableEq, Repr

instance : Inhabited TimestampCandidate :=
  ⟨{ seconds := 0, label := "", relevance := "", priority := 0,
     transcriptContext := none, chapterTitle := none }⟩

/-- Captured still frame, from types.ts (StillFrame).  The optional fields
isFallback, transcriptContext, chapterTitle, relevance and tileRect are
embedded as Option; a JavaScript object that never assigns the field
corresponds to none. -/
structure StillFrame where
  timestampSeconds : ℚ
  timestampFormatted : String
  label : String
  imageUrl : String
  isFallback : Option Bool
  transcriptContext : Option String
  chapterTitle : Option String
  relevance : Option String
  tileRect : Option TileRect
deriving DecidableEq, Repr

/-- Truncation of a rational toward zero, as JavaScript coerces in the
expression a - b * trunc(a / b) implicit in the percent operator. -/
def ratTrunc (q : ℚ) : ℤ := if 0 ≤ q then ⌊q⌋ else ⌈q⌉

/-- JavaScript remainder a % b (sign of the dividend). -/
def jsRem (a b : ℚ) : ℚ := a - b * (ratTrunc (a / b) : ℚ)

/-- JavaScript String(n).padStart(2, zero-digit). -/
def padStart2 (s : String) : String :=
  if 2 ≤ s.length then s else if s.length = 1 then "0" ++ s else "00"

/-- formatTimestamp from transcript.ts: h = floor(t / 3600),
m = floor((t % 3600) / 60), s = floor(t % 60); hours are printed only when
positive, minutes and seconds are zero-padded to two digits (minutes only
when hours are shown). -/
def formatTimestamp (totalSeconds : ℚ) : String :=
  let h := ⌊totalSeconds / 3600⌋
  let m := ⌊jsRem totalSeconds 3600 / 60⌋
  let s := ⌊jsRem totalSeconds 60⌋
  if 0 < h then
    toString h ++ ":" ++ padStart2 (toString m) ++ ":" ++ padStart2 (toString s)
  else
    toString m ++ ":" ++ padStart2 (toString s)

/-- JavaScript s.includes(sub): substring containment (a non-empty pattern
occurs iff splitting on it yields more than one part; the empty pattern is
always contained). -/
def containsSub (s sub : String) : Bool :=
  sub == "" || (s.splitOn sub).length > 1

/-- JavaScript s.replace(pat, repl) with a string pattern replaces only the
first occurrence; if the pattern does not occur the string is unchanged. -/
def replaceFirst (s pat repl : String) : String :=
  match s.splitOn pat with
  | [] => s
  | [t] => t
  | t :: rest => t ++ repl ++ String.intercalate pat rest

/-- JavaScript parseInt(s, 10): skip leading whitespace, read an optional
sign and then a maximal run of decimal digits, ignoring anything after it;
no digits means NaN, embedded as none. -/
def parseIntJS (s : String) : Option ℤ :=
  let cs := s.toList.dropWhile Char.isWhitespace
  let signAndRest : ℤ × List Char :=
    match cs with
    | '-' :: rest => (-1, rest)
    | '+' :: rest => (1, rest)
    | _ => (1, cs)
  let digits := signAndRest.2.takeWhile Char.isDigit
  if digits.isEmpty then none
  else some (signAndRest.1 *
    (digits.foldl (fun acc c => 10 * acc + ((c.toNat : ℤ) - 48)) 0))

/-- JavaScript falsiness of a parseInt result: NaN (none) and 0 are falsy;
every other integer, negative ones included, is truthy. -/
def falsyInt : Option ℤ → Bool
  | none => true
  | some n => n == 0

/-- URL construction for one storyboard tile: substitute the sheet index for
the first occurrence of the dollar-M placeholder, then append the signature
as a query parameter when it is non-empty and not already embedded. -/
def tileUrl (levelUrl : String) (sheetIndex : ℤ) (sigh : String) : String :=
  let url := replaceFirst levelUrl "$M" (toString sheetIndex)
  if sigh != "" && !(containsSub url "sigh=") then
    url ++ (if containsSub url "?" then "&" else "?") ++ "sigh=" ++ sigh
  else url

/-- Tile generation loop of parseStoryboardSpec: for i in [0, count),
sheetIndex = floor(i / (cols * rows)), posInSheet = i % (cols * rows),
col = posInSheet % cols, row = floor(posInSheet / cols).  The loop index is
non-negative, so the JavaScript remainder coincides with Int.emod and
Math.floor of the quotient with Int.fdiv. -/
def mkTiles (levelUrl : String) (width height count cols rows intervalMs : ℤ)
    (sigh : String) : List StoryboardTile :=
  let tilesPerSheet := cols * rows
  (List.range count.toNat).map fun (i : ℕ) =>
    let sheetIndex := Int.fdiv (i : ℤ) tilesPerSheet
    let posInSheet := Int.emod (i : ℤ) tilesPerSheet
    let col := Int.emod posInSheet cols
    let row := Int.fdiv posInSheet cols
    { url := tileUrl levelUrl sheetIndex sigh
      tileRect := { x := col * width, y := row * height, w := width, h := height }
      timestampMs := (i : ℤ) * intervalMs }

/-- parseStoryboardSpec from the frames module.  Levels are separated by the
hash character; the last (highest quality) level is decoded.  Fewer than 2
levels, fewer than 8 pipe-separated fields, or a falsy parsed numeric field
yields the empty tile list.  When the chosen level has an empty URL field,
the first level URL field is the template root. -/
def parseStoryboardSpec (spec : String) : List StoryboardTile :=
  let levels := spec.splitOn "#"
  if levels.length < 2 then []
  else
    let bestLevel := levels.getLastD ""
    let parts := bestLevel.splitOn "|"
    if parts.length < 8 then []
    else
      let baseUrlRoot := ((levels.headD "").splitOn "|").headD ""
      let levelUrl := if parts.headD "" != "" then parts.headD "" else baseUrlRoot
      let width := parseIntJS (parts.getD 1 "")
      let height := parseIntJS (parts.getD 2 "")
      let count := parseIntJS (parts.getD 3 "")
      let cols := parseIntJS (parts.getD 4 "")
      let rows := parseIntJS (parts.getD 5 "")
      let intervalMs := parseIntJS (parts.getD 6 "")
      let sigh := parts.getD 7 ""
      if falsyInt width || falsyInt height || falsyInt count ||
          falsyInt cols || falsyInt rows || falsyInt intervalMs then []
      else
        mkTiles levelUrl (width.getD 0) (height.getD 0) (count.getD 0)
          (cols.getD 0) (rows.getD 0) (intervalMs.getD 0) sigh

/-- findNearestTile from the frames module: the tile whose timestampMs is at
minimum absolute distance from seconds * 1000, ties broken by first
occurrence; none for an empty tile list. -/
def findNearestTile (tiles : List StoryboardTile) (seconds : ℚ) :
    Option StoryboardTile :=
  match tiles with
  | [] => none
  | t0 :: _ =>
    let targetMs := seconds * 1000
    some (tiles.foldl
      (fun best tile =>
        if |(tile.timestampMs : ℚ) - targetMs| < |(best.timestampMs : ℚ) - targetMs|
        then tile else best)
      t0)

/-- captureFrames from the frames module.  The exact-extraction tier
(captureWithFfmpeg, an external effectful collaborator) is embedded as an
oracle argument; none covers both a null result and a thrown error, which
the source absorbs with try/catch, and a successful result is accepted only
when truthy (non-empty).  Each candidate yields exactly one frame: tier 1 is
the oracle, tier 2 the nearest storyboard tile, tier 3 the fixed hqdefault
thumbnail.  The source never assigns isFallback, so it is none in every
branch. -/
def captureFrames (captureWithFfmpeg : String → ℚ → Option String)
    (videoId : String) (timestamps : List TimestampCandidate)
    (storyboardSpec : Option String) : List StillFrame :=
  let storyboardTiles :=
    match storyboardSpec with
    | some spec => if spec != "" then parseStoryboardSpec spec else []
    | none => []
  timestamps.map fun ts =>
    let mkFrame : String → Option TileRect → StillFrame := fun imageUrl rect =>
      { timestampSeconds := ts.seconds
        timestampFormatted := formatTimestamp ts.seconds
        label := ts.label
        imageUrl := imageUrl
        isFallback := none
        transcriptContext := ts.transcriptContext
        chapterTitle := ts.chapterTitle
        relevance := some ts.relevance
        tileRect := rect }
    let tiers23 : StillFrame :=
      match findNearestTile storyboardTiles ts.seconds with
      | some tile => mkFrame tile.url (some tile.tileRect)
      | none => mkFrame ("https://i.ytimg.com/vi/" ++ videoId ++ "/hqdefault.jpg") none
    match captureWithFfmpeg videoId ts.seconds with
    | some captured => if captured != "" then mkFrame captured none else tiers23
    | none => tiers23

/-- Visual cue pattern test of the frames module: the source checks the
segment text against a fixed list of case-insensitive literal phrase
regexes (one of which makes an apostrophe optional); a text matches when it
contains any phrase, case-insensitively. -/
def matchesVisualCue (text : String) : Bool :=
  let t := text.toLower
  containsSub t "as you can see" ||
  containsSub t "let me show you" ||
  containsSub t "this diagram" ||
  containsSub t ("here" ++ String.singleton (Char.ofNat 39) ++ "s the code") ||
  containsSub t "heres the code" ||
  containsSub t "this example" ||
  containsSub t "look at this" ||
  containsSub t "on the screen" ||
  containsSub t "right here" ||
  containsSub t "notice that" ||
  containsSub t "take a look"

/-- getChapterAt from the frames module: walk the chapter list, remembering
the last title whose startSeconds is at most the query, stopping at the
first chapter that starts later. -/
def getChapterAtAux (current : Option String) :
    List VideoChapter → ℚ → Option String
  | [], _ => current
  | ch :: rest, seconds =>
    if ch.startSeconds ≤ seconds then getChapterAtAux (some ch.title) rest seconds
    else current

/-- getChapterAt entry point (current starts as undefined). -/
def getChapterAt (chapters : List VideoChapter) (seconds : ℚ) : Option String :=
  getChapterAtAux none chapters seconds

/-- getTranscriptContext from the frames module: the texts of the segments
starting within 5 seconds of the query, joined by single spaces and cut to
200 characters; none when no segment is nearby. -/
def getTranscriptContext (segments : List TranscriptSegment) (seconds : ℚ) :
    Option String :=
  let nearby := segments.filter fun s =>
    decide (seconds - 5 ≤ s.startSeconds) && decide (s.startSeconds ≤ seconds + 5)
  if nearby.isEmpty then none
  else some ((String.intercalate " " (nearby.map fun s => s.text)).take 200)

/-- Priority 1 pass of pickTimestamps: one candidate per transcript segment
whose text matches a visual cue pattern (the source breaks after the first
matching pattern, so a segment contributes at most one candidate). -/
def visualCuePass (chapters : List VideoChapter)
    (transcript : List TranscriptSegment) : List TimestampCandidate :=
  transcript.filterMap fun seg =>
    if matchesVisualCue seg.text then
      some { seconds := seg.startSeconds
             label := seg.text.take 80
             relevance := "visual_cue"
             priority := 1
             transcriptContext := some seg.text
             chapterTitle := getChapterAt chapters seg.startSeconds }
    else none

/-- Priority 2 pass of pickTimestamps: one candidate per chapter at
min(startSeconds + 5, durationSeconds - 1). -/
def chapterPass (durationSeconds : ℚ) (chapters : List VideoChapter)
    (transcript : List TranscriptSegment) : List TimestampCandidate :=
  chapters.map fun ch =>
    let t := min (ch.startSeconds + 5) (durationSeconds - 1)
    { seconds := t
      label := ch.title
      relevance := "chapter_start"
      priority := 2
      transcriptContext := getTranscriptContext transcript t
      chapterTitle := some ch.title }

/-- Priority 3 pass of pickTimestamps: for each adjacent pair of transcript
segments with a silence gap above 3 seconds, a candidate at the start of the
second segment.  Adjacent pairs are the zip of the list with its tail. -/
def topicTransitionPass (chapters : List VideoChapter)
    (transcript : List TranscriptSegment) : List TimestampCandidate :=
  (transcript.zip transcript.tail).filterMap fun pc =>
    if pc.2.startSeconds - (pc.1.startSeconds + pc.1.durationSeconds) > 3 then
      some { seconds := pc.2.startSeconds
             label := "Topic transition at " ++ formatTimestamp pc.2.startSeconds
             relevance := "topic_transition"
             priority := 3
             transcriptContext := some pc.2.text
             chapterTitle := getChapterAt chapters pc.2.startSeconds }
    else none

/-- Iteration count of the loop for (t = interval; t < durationSeconds - 5;
t += interval): the k-th iteration visits t = interval * (k + 1), so the
loop runs while interval * (k + 1) < durationSeconds - 5, i.e. for
k < ceil((durationSeconds - 5) / interval) - 1 when interval is positive
(see intervalCount_spec below). -/
def intervalCount (durationSeconds intervalSeconds : ℚ) : ℕ :=
  ((⌈(durationSeconds - 5) / intervalSeconds⌉ - 1)).toNat

/-- Priority 4 pass of pickTimestamps: candidates at t = interval,
2 * interval, ... while t < durationSeconds - 5, where interval is the
larger of intervalSeconds and 10. -/
def intervalPass (durationSeconds : ℚ) (chapters : List VideoChapter)
    (transcript : List TranscriptSegment) (intervalSeconds : ℚ) :
    List TimestampCandidate :=
  let interval := max intervalSeconds 10
  (List.range (intervalCount durationSeconds interval)).map fun (k : ℕ) =>
    let t := interval * ((k : ℚ) + 1)
    { seconds := t
      label := "Frame at " ++ formatTimestamp t
      relevance := "interval"
      priority := 4
      transcriptContext := getTranscriptContext transcript t
      chapterTitle := getChapterAt chapters t }

/-- Characterization justifying intervalCount: it counts exactly the loop
iterations of the interval pass. -/
theorem intervalCount_spec (d iv : ℚ) (hiv : 0 < iv) (k : ℕ) :
    k < intervalCount d iv ↔ iv * ((k : ℚ) + 1) < d - 5 := by
  unfold intervalCount
  rw [Int.lt_toNat]
  constructor
  · intro h
    have hk2 : ((k : ℤ) + 1 : ℤ) < ⌈(d - 5) / iv⌉ := by omega
    have hlt := Int.lt_ceil.mp hk2
    push_cast at hlt
    calc iv * ((k : ℚ) + 1) = ((k : ℚ) + 1) * iv := by ring
    _ < ((d - 5) / iv) * iv := mul_lt_mul_of_pos_right hlt hiv
    _ = d - 5 := div_mul_cancel₀ _ (ne_of_gt hiv)
  · intro h
    have hlt : ((k : ℚ) + 1) < (d - 5) / iv := by
      rw [lt_div_iff₀ hiv]
      calc ((k : ℚ) + 1) * iv = iv * ((k : ℚ) + 1) := by ring
      _ < d - 5 := h
    have hceil : ((k : ℤ) + 1 : ℤ) < ⌈(d - 5) / iv⌉ := by
      apply Int.lt_ceil.mpr
      push_cast
      exact hlt
    omega

/-- Relation embedding of the first sort comparator of pickTimestamps,
(a, b) to a.priority - b.priority or else a.seconds - b.seconds: a precedes
or ties b exactly when its priority is smaller, or priorities tie and its
seconds are at most those of b. -/
def candLE (a b : TimestampCandidate) : Prop :=
  a.priority < b.priority ∨ (a.priority = b.priority ∧ a.seconds ≤ b.seconds)

instance : DecidableRel candLE := fun a b => by
  unfold candLE; exact inferInstance

instance : IsTotal TimestampCandidate candLE where
  total a b := by
    unfold candLE
    rcases Nat.lt_trichotomy a.priority b.priority with h | h | h
    · exact Or.inl (Or.inl h)
    · rcases le_total a.seconds b.seconds with hs | hs
      · exact Or.inl (Or.inr ⟨h, hs⟩)
      · exact Or.inr (Or.inr ⟨h.symm, hs⟩)
    · exact Or.inr (Or.inl h)

instance : IsTrans TimestampCandidate candLE where
  trans a b c hab hbc := by
    unfold candLE at *
    rcases hab with h1 | ⟨h1, h1s⟩ <;> rcases hbc with h2 | ⟨h2, h2s⟩
    · exact Or.inl (h1.trans h2)
    · exact Or.inl (h2 ▸ h1)
    · exact Or.inl (h1 ▸ h2)
    · exact Or.inr ⟨h1.trans h2, h1s.trans h2s⟩

/-- Relation embedding of the second sort comparator of pickTimestamps,
(a, b) to a.seconds - b.seconds. -/
def secondsLE (a b : TimestampCandidate) : Prop := a.seconds ≤ b.seconds

instance : DecidableRel secondsLE := fun a b => by
  unfold secondsLE; exact inferInstance

instance : IsTotal TimestampCandidate secondsLE where
  total a b := le_total a.seconds b.seconds

instance : IsTrans TimestampCandidate secondsLE where
  trans _ _ _ hab hbc := le_trans hab hbc

/-- One step of the deduplication loop of pickTimestamps: keep the next
candidate only when no already kept candidate lies strictly within 10
seconds of it. -/
def dedupStep (deduped : List TimestampCandidate) (c : TimestampCandidate) :
    List TimestampCandidate :=
  if deduped.any (fun d => decide (|d.seconds - c.seconds| < 10)) then deduped
  else deduped ++ [c]

/-- Deduplication loop of pickTimestamps over the priority-sorted candidate
list. -/
def dedupWithin10 (candidates : List TimestampCandidate) :
    List TimestampCandidate :=
  candidates.foldl dedupStep []

/-- Index used by the even sampling step: floor(i * step) with
step = count / maxFrames, computed on exact rationals. -/
def sampleIdx (count maxFrames i : ℕ) : ℕ :=
  (⌊(i : ℚ) * ((count : ℚ) / (maxFrames : ℚ))⌋).toNat

/-- Concatenation of the four generation passes of pickTimestamps, in
source order. -/
def allCandidates (durationSeconds : ℚ) (chapters : List VideoChapter)
    (intervalSeconds : ℚ) (transcript : List TranscriptSegment) :
    List TimestampCandidate :=
  visualCuePass chapters transcript ++
  chapterPass durationSeconds chapters transcript ++
  topicTransitionPass chapters transcript ++
  intervalPass durationSeconds chapters transcript intervalSeconds

/-- The deduplicated, chronologically re-sorted candidate list of
pickTimestamps (state of the deduped array after the second sort, before
budget reduction). -/
def dedupedChron (durationSeconds : ℚ) (chapters : List VideoChapter)
    (intervalSeconds : ℚ) (transcript : List TranscriptSegment) :
    List TimestampCandidate :=
  List.insertionSort secondsLE
    (dedupWithin10
      (List.insertionSort candLE
        (allCandidates durationSeconds chapters intervalSeconds transcript)))

/-- pickTimestamps from the frames module: generate candidates in four
passes, sort by (priority, seconds), deduplicate within 10 seconds, re-sort
chronologically, and when the result exceeds maxFrames reduce it by even
index sampling. -/
def pickTimestamps (durationSeconds : ℚ) (chapters : List VideoChapter)
    (maxFrames : ℕ) (intervalSeconds : ℚ)
    (transcript : List TranscriptSegment) : List TimestampCandidate :=
  let deduped := dedupedChron durationSeconds chapters intervalSeconds transcript
  if maxFrames < deduped.length then
    (List.range maxFrames).map fun i =>
      deduped.getD (sampleIdx deduped.length maxFrames i) default
  else deduped

/-- Two candidates at least 10 seconds apart (the negation of the closeness
test of the deduplication loop). -/
def far10 (a b : TimestampCandidate) : Prop := 10 ≤ |a.seconds - b.seconds|

theorem far10_symm {a b : TimestampCandidate} (h : far10 a b) : far10 b a := by
  unfold far10 at *
  rwa [abs_sub_comm]

/-- The deduplication loop keeps its accumulator pairwise at least 10
seconds apart: a candidate is appended only when it is not strictly within
10 seconds of any kept candidate. -/
theorem pairwise_far10_foldl_dedupStep (l : List TimestampCandidate) :
    ∀ acc : List TimestampCandidate, acc.Pairwise far10 →
      (l.foldl dedupStep acc).Pairwise far10 := by
  induction l with
  | nil => intro acc h; simpa using h
  | cons c l ih =>
    intro acc hacc
    rw [List.foldl_cons]
    apply ih
    unfold dedupStep
    split
    · exact hacc
    · next hno =>
      rw [List.pairwise_append]
      refine ⟨hacc, List.pairwise_singleton _ _, ?_⟩
      intro a ha b hb
      rw [List.mem_singleton] at hb
      subst hb
      unfold far10
      by_contra hcon
      push_neg at hcon
      exact hno (List.any_eq_true.mpr ⟨a, ha, decide_eq_true hcon⟩)

/-- Every element of the deduplication result comes from the accumulator or
from the input list. -/
theorem mem_foldl_dedupStep (l : List TimestampCandidate) :
    ∀ acc x, x ∈ l.foldl dedupStep acc → x ∈ acc ∨ x ∈ l := by
  induction l with
  | nil => intro acc x h; exact Or.inl (by simpa using h)
  | cons c l ih =>
    intro acc x h
    rw [List.foldl_cons] at h
    rcases ih _ x h with h2 | h2
    · unfold dedupStep at h2
      split at h2
      · exact Or.inl h2
      · rcases List.mem_append.mp h2 with h3 | h3
        · exact Or.inl h3
        · rw [List.mem_singleton] at h3
          subst h3
          exact Or.inr (List.mem_cons_self x l)
    · exact Or.inr (List.mem_cons_of_mem c h2)

/-- The deduplication loop never shrinks its accumulator. -/
theorem length_le_foldl_dedupStep (l : List TimestampCandidate) :
    ∀ acc : List TimestampCandidate,
      acc.length ≤ (l.foldl dedupStep acc).length := by
  induction l with
  | nil => intro acc; simp
  | cons c l ih =>
    intro acc
    rw [List.foldl_cons]
    refine le_trans ?_ (ih _)
    unfold dedupStep
    split
    · exact le_refl _
    · simp

/-- After deduplication and chronological re-sorting the candidate list is
ordered with gaps of at least 10 seconds: each element is at least 10
seconds after the previous one. -/
theorem dedupedChron_pairwise_gap (d : ℚ) (chs : List VideoChapter) (iv : ℚ)
    (tr : List TranscriptSegment) :
    (dedupedChron d chs iv tr).Pairwise fun a b =>
      a.seconds + 10 ≤ b.seconds := by
  unfold dedupedChron dedupWithin10
  set l1 := (List.insertionSort candLE
    (allCandidates d chs iv tr)).foldl dedupStep [] with hl1
  have hfar : l1.Pairwise far10 :=
    pairwise_far10_foldl_dedupStep _ [] List.Pairwise.nil
  have hperm : (List.insertionSort secondsLE l1).Perm l1 :=
    List.perm_insertionSort _ _
  have hfar2 : (List.insertionSort secondsLE l1).Pairwise far10 :=
    hfar.perm hperm.symm fun h => far10_symm h
  have hsorted : (List.insertionSort secondsLE l1).Pairwise secondsLE :=
    List.sorted_insertionSort _ _
  refine (hsorted.and hfar2).imp ?_
  intro a b hab
  obtain ⟨h1, h2⟩ := hab
  unfold secondsLE at h1
  unfold far10 at h2
  rw [abs_sub_comm, abs_of_nonneg (by linarith)] at h2
  linarith

/-- The even sampling index floor(i * (count / maxFrames)) is natural
division of i * count by maxFrames. -/
theorem sampleIdx_eq_div (count m i : ℕ) (_hm : 0 < m) :
    sampleIdx count m i = i * count / m := by
  unfold sampleIdx
  have h1 : (i : ℚ) * ((count : ℚ) / (m : ℚ)) =
      ((i * count : ℕ) : ℚ) / ((m : ℕ) : ℚ) := by
    push_cast
    ring
  rw [h1, Int.floor_toNat, Nat.floor_div_nat, Nat.floor_natCast]

/-- Even sampling indices are strictly monotone when the list is longer
than the budget. -/
theorem sampleIdx_strict_mono (count m i j : ℕ) (hm : m < count)
    (hij : i < j) (hj : j < m) :
    sampleIdx count m i < sampleIdx count m j := by
  have hm0 : 0 < m := lt_of_le_of_lt (Nat.zero_le i) (lt_trans hij hj)
  rw [sampleIdx_eq_div _ _ _ hm0, sampleIdx_eq_div _ _ _ hm0]
  have key : i * count / m + 1 ≤ (i + 1) * count / m := by
    rw [← Nat.add_div_right _ hm0]
    apply Nat.div_le_div_right
    have h2 : (i + 1) * count = i * count + count := by ring
    omega
  refine lt_of_lt_of_le (Nat.lt_of_lt_of_le (Nat.lt_succ_self _) key) ?_
  apply Nat.div_le_div_right
  exact Nat.mul_le_mul_right _ hij

/-- Even sampling indices stay within the list. -/
theorem sampleIdx_lt_count (count m i : ℕ) (hm : m < count) (hi : i < m) :
    sampleIdx count m i < count := by
  have hm0 : 0 < m := lt_of_le_of_lt (Nat.zero_le i) hi
  rw [sampleIdx_eq_div _ _ _ hm0]
  rw [Nat.div_lt_iff_lt_mul hm0]
  have hc0 : 0 < count := lt_trans hm0 hm
  calc i * count < m * count := (Nat.mul_lt_mul_right hc0).mpr hi
  _ = count * m := Nat.mul_comm _ _

/-- Every candidate returned by pickTimestamps was generated by one of the
four passes: sampling picks elements of the chronological list, which is a
permutation of the deduplicated list, whose elements come from the
priority-sorted list, a permutation of the concatenated passes. -/
theorem mem_allCandidates_of_mem_pickTimestamps (d : ℚ)
    (chs : List VideoChapter) (m : ℕ) (iv : ℚ)
    (tr : List TranscriptSegment) (c : TimestampCandidate)
    (hc : c ∈ pickTimestamps d chs m iv tr) :
    c ∈ allCandidates d chs iv tr := by
  have hchron : c ∈ dedupedChron d chs iv tr := by
    simp only [pickTimestamps] at hc
    split at hc
    · next hlt =>
      rw [List.mem_map] at hc
      obtain ⟨i, hi, rfl⟩ := hc
      rw [List.mem_range] at hi
      have hidx : sampleIdx (dedupedChron d chs iv tr).length m i <
          (dedupedChron d chs iv tr).length :=
        sampleIdx_lt_count _ _ _ hlt hi
      rw [List.getD_eq_getElem _ _ hidx]
      exact List.getElem_mem hidx
    · exact hc
  unfold dedupedChron at hchron
  have h1 := (List.perm_insertionSort secondsLE _).mem_iff.mp hchron
  unfold dedupWithin10 at h1
  rcases mem_foldl_dedupStep _ [] c h1 with h2 | h2
  · simp at h2
  · exact (List.perm_insertionSort candLE _).mem_iff.mp h2

/-- C2: for every input, the list returned by pickTimestamps is strictly
increasing in seconds and no two of its elements lie within 10 seconds of
each other (each element is at least 10 seconds after every earlier one,
which the even-sampling budget reduction preserves because it reads the
deduplicated chronological list at strictly increasing indices). -/
theorem pickTimestamps_strictly_increasing_gap10 (d : ℚ)
    (chs : List VideoChapter) (m : ℕ) (iv : ℚ)
    (tr : List TranscriptSegment) :
    (pickTimestamps d chs m iv tr).Pairwise fun a b =>
      a.seconds + 10 ≤ b.seconds := by
  have hP := dedupedChron_pairwise_gap d chs iv tr
  simp only [pickTimestamps]
  split
  · next hlt =>
    rw [List.pairwise_iff_getElem]
    intro i j hi hj hij
    rw [List.length_map, List.length_range] at hi hj
    have hidxi : sampleIdx (dedupedChron d chs iv tr).length m i <
        (dedupedChron d chs iv tr).length := sampleIdx_lt_count _ _ _ hlt hi
    have hidxj : sampleIdx (dedupedChron d chs iv tr).length m j <
        (dedupedChron d chs iv tr).length := sampleIdx_lt_count _ _ _ hlt hj
    have hmono : sampleIdx (dedupedChron d chs iv tr).length m i <
        sampleIdx (dedupedChron d chs iv tr).length m j :=
      sampleIdx_strict_mono _ _ _ _ hlt hij hj
    have hget := List.pairwise_iff_getElem.mp hP _ _ hidxi hidxj hmono
    simp only [List.getElem_map, List.getElem_range]
    rw [List.getD_eq_getElem _ _ hidxi, List.getD_eq_getElem _ _ hidxj]
    exact hget
  · exact hP

/-- C5: for every input the list returned by pickTimestamps has at most
maxFrames elements; when the deduplicated list is longer, the even sampling
loop emits exactly maxFrames elements. -/
theorem pickTimestamps_length_le_maxFrames (d : ℚ) (chs : List VideoChapter)
    (m : ℕ) (iv : ℚ) (tr : List TranscriptSegment) :
    (pickTimestamps d chs m iv tr).length ≤ m := by
  simp only [pickTimestamps]
  split
  · simp
  · next h => exact Nat.le_of_not_lt h

/-- Transcript segment used by the C6 counterexample: no visual cue phrase
occurs in its text. -/
def helloSegment : TranscriptSegment :=
  { text := "hello world", startSeconds := 0, durationSeconds := 1,
    startFormatted := "0:00" }

/-- C6, counterexample: a positive duration with a non-empty transcript (and
no chapters) on which pickTimestamps returns the empty list — the lone
segment matches no visual cue, adjacent-pair gaps need at least two
segments, and the duration is too short for any interval candidate. -/
theorem pickTimestamps_empty_on_nonempty_input :
    (0 : ℚ) < 1 ∧ ([helloSegment] : List TranscriptSegment) ≠ [] ∧
    pickTimestamps 1 [] 10 60 [helloSegment] = [] := by
  refine ⟨by norm_num, by simp, by with_unfolding_all decide⟩

/-- C6, amended: with a positive duration, a positive frame budget and a
non-empty chapter list, pickTimestamps returns at least one candidate. -/
theorem pickTimestamps_ne_nil_of_chapters (d : ℚ) (chs : List VideoChapter)
    (m : ℕ) (iv : ℚ) (tr : List TranscriptSegment) (_hd : 0 < d)
    (hm : 0 < m) (hchs : chs ≠ []) :
    pickTimestamps d chs m iv tr ≠ [] := by
  have hall : allCandidates d chs iv tr ≠ [] := by
    intro h
    apply hchs
    unfold allCandidates at h
    rcases List.append_eq_nil.mp h with ⟨h1, _⟩
    rcases List.append_eq_nil.mp h1 with ⟨h2, _⟩
    rcases List.append_eq_nil.mp h2 with ⟨_, h3⟩
    unfold chapterPass at h3
    exact List.map_eq_nil_iff.mp h3
  have hsorted_ne : List.insertionSort candLE (allCandidates d chs iv tr) ≠ [] := by
    intro h
    apply hall
    rw [← List.length_eq_zero]
    rw [← (List.perm_insertionSort candLE (allCandidates d chs iv tr)).length_eq]
    rw [h]
    rfl
  have hded_ne : dedupWithin10
      (List.insertionSort candLE (allCandidates d chs iv tr)) ≠ [] := by
    obtain ⟨c, rest, hc⟩ := List.exists_cons_of_ne_nil hsorted_ne
    rw [hc]
    unfold dedupWithin10
    rw [List.foldl_cons]
    have hstep : dedupStep [] c = [c] := by unfold dedupStep; simp
    rw [hstep]
    intro h
    have hlen := length_le_foldl_dedupStep rest [c]
    rw [h] at hlen
    simp at hlen
  have hchron_ne : dedupedChron d chs iv tr ≠ [] := by
    unfold dedupedChron
    intro h
    apply hded_ne
    rw [← List.length_eq_zero]
    rw [← (List.perm_insertionSort secondsLE _).length_eq]
    rw [h]
    rfl
  simp only [pickTimestamps]
  split
  · next hlt =>
    intro h
    rw [List.map_eq_nil_iff, List.range_eq_nil] at h
    omega
  · exact hchron_ne

/-- C6, witness for the amended statement at a concrete input. -/
theorem pickTimestamps_ne_nil_of_chapters_witness :
    pickTimestamps 630 ([⟨"Intro", 0, "0:00"⟩] : List VideoChapter) 10 60 [] ≠ [] :=
  pickTimestamps_ne_nil_of_chapters 630 ([⟨"Intro", 0, "0:00"⟩] : List VideoChapter)
    10 60 [] (by norm_num) (by norm_num) (by simp)

/-- Every generated candidate has non-negative seconds once the duration is
at least 1 and chapter and transcript start times are non-negative: the
visual cue and topic transition passes reuse transcript start times, the
chapter pass clamps to min(start + 5, duration - 1), and the interval pass
uses positive multiples of an interval of at least 10. -/
theorem seconds_nonneg_of_mem_allCandidates (d : ℚ)
    (chs : List VideoChapter) (iv : ℚ) (tr : List TranscriptSegment)
    (hd : 1 ≤ d) (hchs : ∀ ch ∈ chs, 0 ≤ ch.startSeconds)
    (htr : ∀ seg ∈ tr, 0 ≤ seg.startSeconds)
    (c : TimestampCandidate) (hc : c ∈ allCandidates d chs iv tr) :
    0 ≤ c.seconds := by
  unfold allCandidates at hc
  rcases List.mem_append.mp hc with hc1 | hc4
  rotate_left
  · unfold intervalPass at hc4
    rw [List.mem_map] at hc4
    obtain ⟨k, _, rfl⟩ := hc4
    have h10 : (10 : ℚ) ≤ max iv 10 := le_max_right _ _
    have hk : (0 : ℚ) ≤ (k : ℚ) + 1 := by
      have hk0 : (0 : ℚ) ≤ (k : ℚ) := Nat.cast_nonneg k
      linarith
    exact mul_nonneg (by linarith) hk
  rcases List.mem_append.mp hc1 with hc2 | hc3
  rotate_left
  · unfold topicTransitionPass at hc3
    rw [List.mem_filterMap] at hc3
    obtain ⟨pc, hpc, hsome⟩ := hc3
    obtain ⟨p, q⟩ := pc
    split at hsome
    · rw [Option.some.injEq] at hsome
      subst hsome
      exact htr q (List.mem_of_mem_tail (List.of_mem_zip hpc).2)
    · exact absurd hsome (by simp)
  rcases List.mem_append.mp hc2 with hcue | hch
  · unfold visualCuePass at hcue
    rw [List.mem_filterMap] at hcue
    obtain ⟨seg, hseg, hsome⟩ := hcue
    split at hsome
    · rw [Option.some.injEq] at hsome
      subst hsome
      exact htr seg hseg
    · exact absurd hsome (by simp)
  · unfold chapterPass at hch
    rw [List.mem_map] at hch
    obtain ⟨ch, hch2, rfl⟩ := hch
    have h1 : 0 ≤ ch.startSeconds := hchs ch hch2
    exact le_min (by linarith) (by linarith)

/-- C9, counterexample: with durationSeconds = 0 (a non-negative duration)
and a single chapter starting at 0, the chapter pass clamp
min(startSeconds + 5, durationSeconds - 1) produces a candidate at -1,
a negative timestamp. -/
theorem pickTimestamps_negative_candidate :
    (0 : ℚ) ≤ 0 ∧
    ([⟨"A", 0, "0:00"⟩] : List VideoChapter).all
      (fun ch => decide (0 ≤ ch.startSeconds)) = true ∧
    (pickTimestamps 0 ([⟨"A", 0, "0:00"⟩] : List VideoChapter) 10 60 []).map
      (fun c => c.seconds) = [-1] ∧
    (-1 : ℚ) < 0 := by
  refine ⟨le_refl _, by with_unfolding_all decide, ?_, by norm_num⟩
  with_unfolding_all decide

/-- C9, amended: when the duration is at least 1 and chapter and transcript
start times are non-negative, every candidate returned by pickTimestamps
has non-negative seconds; the chapter pass emits one candidate per chapter
at min(startSeconds + 5, durationSeconds - 1). -/
theorem pickTimestamps_seconds_nonneg (d : ℚ) (chs : List VideoChapter)
    (m : ℕ) (iv : ℚ) (tr : List TranscriptSegment) (hd : 1 ≤ d)
    (hchs : ∀ ch ∈ chs, 0 ≤ ch.startSeconds)
    (htr : ∀ seg ∈ tr, 0 ≤ seg.startSeconds) :
    (∀ c ∈ pickTimestamps d chs m iv tr, 0 ≤ c.seconds) ∧
    (chapterPass d chs tr).map (fun c => c.seconds) =
      chs.map fun ch => min (ch.startSeconds + 5) (d - 1) := by
  constructor
  · intro c hc
    exact seconds_nonneg_of_mem_allCandidates d chs iv tr hd hchs htr c
      (mem_allCandidates_of_mem_pickTimestamps d chs m iv tr c hc)
  · unfold chapterPass
    rw [List.map_map]
    rfl

/-- C9, witness for the amended statement at a concrete input. -/
theorem pickTimestamps_seconds_nonneg_witness :
    (pickTimestamps 20 ([⟨"A", 0, "0:00"⟩] : List VideoChapter) 5 60 []).all
      (fun c => decide (0 ≤ c.seconds)) = true ∧
    (chapterPass 20 ([⟨"A", 0, "0:00"⟩] : List VideoChapter) []).map
      (fun c => c.seconds) =
      ([⟨"A", 0, "0:00"⟩] : List VideoChapter).map
        (fun ch => min (ch.startSeconds + 5) (20 - 1)) := by
  have h := pickTimestamps_seconds_nonneg 20
    ([⟨"A", 0, "0:00"⟩] : List VideoChapter) 5 60 [] (by norm_num)
    (by intro ch hch; rw [List.mem_singleton] at hch; subst hch; norm_num)
    (by intro seg hseg; simp at hseg)
  refine ⟨?_, h.2⟩
  exact List.all_eq_true.mpr fun c hc => decide_eq_true (h.1 c hc)

/-- C10: whenever maxFrames is positive, the first element of the list
returned by pickTimestamps is the first element of the deduplicated
chronological list: even sampling reads index floor(0 * step) = 0 first, so
the earliest surviving candidate is never dropped by budget reduction. -/
theorem pickTimestamps_head_preserved (d : ℚ) (chs : List VideoChapter)
    (m : ℕ) (iv : ℚ) (tr : List TranscriptSegment) (hm : 0 < m) :
    (pickTimestamps d chs m iv tr).head? =
      (dedupedChron d chs iv tr).head? := by
  simp only [pickTimestamps]
  split
  · next hlt =>
    obtain ⟨k, rfl⟩ : ∃ k, m = k + 1 :=
      ⟨m - 1, (Nat.succ_pred_eq_of_pos hm).symm⟩
    rw [List.range_succ_eq_map, List.map_cons, List.head?_cons]
    have hidx : sampleIdx (dedupedChron d chs iv tr).length (k + 1) 0 = 0 := by
      unfold sampleIdx
      norm_num
    rw [hidx]
    have hlen : 0 < (dedupedChron d chs iv tr).length :=
      lt_of_le_of_lt (Nat.zero_le _) hlt
    have hne : dedupedChron d chs iv tr ≠ [] := by
      intro h
      rw [h] at hlen
      simp at hlen
    obtain ⟨c, rest, hc⟩ := List.exists_cons_of_ne_nil hne
    rw [hc, List.getD_cons_zero, List.head?_cons]
  · rfl

/-- C10, witness at a concrete input. -/
theorem pickTimestamps_head_preserved_witness :
    0 < 10 ∧
    (pickTimestamps 630 ([⟨"Intro", 0, "0:00"⟩, ⟨"Body", 300, "5:00"⟩] :
        List VideoChapter) 10 60 []).head? =
      (dedupedChron 630 ([⟨"Intro", 0, "0:00"⟩, ⟨"Body", 300, "5:00"⟩] :
        List VideoChapter) 60 []).head? :=
  ⟨by decide, pickTimestamps_head_preserved 630
    ([⟨"Intro", 0, "0:00"⟩, ⟨"Body", 300, "5:00"⟩] : List VideoChapter)
    10 60 [] (by decide)⟩

/-- C1: for every exact-extraction oracle, video id, candidate list and
optional storyboard spec, captureFrames yields exactly one StillFrame per
candidate, in input order (oracle failures and an empty decoded tile set
are absorbed; the final thumbnail tier always succeeds, so the output is
never shorter than the input and the embedding is total). -/
theorem captureFrames_one_frame_per_candidate
    (ffmpeg : String → ℚ → Option String) (videoId : String)
    (timestamps : List TimestampCandidate) (storyboardSpec : Option String) :
    (captureFrames ffmpeg videoId timestamps storyboardSpec).length =
      timestamps.length ∧
    (captureFrames ffmpeg videoId timestamps storyboardSpec).map
      (fun f => f.timestampSeconds) = timestamps.map (fun c => c.seconds) ∧
    (captureFrames ffmpeg videoId timestamps storyboardSpec).map
      (fun f => f.label) = timestamps.map (fun c => c.label) := by
  refine ⟨?_, ?_, ?_⟩
  · simp [captureFrames]
  all_goals
    simp only [captureFrames, List.map_map]
    apply List.map_congr_left
    intro ts _
    simp only [Function.comp_apply]
    cases ffmpeg videoId ts.seconds with
    | some captured =>
      cases hc : (captured != "") with
      | true =>
        simp only [hc, if_true]
      | false =>
        simp only [hc, Bool.false_eq_true, if_false]
        cases findNearestTile _ ts.seconds <;> rfl
    | none =>
      cases findNearestTile _ ts.seconds <;> rfl

/-- Candidate used by the C3 scenario. -/
def bodyCandidate : TimestampCandidate :=
  ⟨12, "Body", "chapter_start", 2, none, none⟩

/-- C3: when the exact-extraction oracle fails on every candidate and no
storyboard spec is supplied, every frame resolves through the generic
thumbnail tier and carries the fixed hqdefault URL — but the source never
assigns isFallback, so the flag is absent (none) rather than true. -/
theorem captureFrames_thumbnail_tier_unflagged :
    (captureFrames (fun _ _ => none) "vid123" [bodyCandidate] none).map
      (fun f => f.imageUrl) =
      ["https://i.ytimg.com/vi/vid123/hqdefault.jpg"] ∧
    (captureFrames (fun _ _ => none) "vid123" [bodyCandidate] none).map
      (fun f => f.isFallback) = [none] ∧
    (captureFrames (fun _ _ => none) "vid123" [bodyCandidate] none).map
      (fun f => f.tileRect) = [none] := by
  refine ⟨?_, ?_, ?_⟩ <;> with_unfolding_all decide

/-- Chapters of the C7 scenario. -/
def scenarioChapters : List VideoChapter :=
  [⟨"Intro", 0, "0:00"⟩, ⟨"Body", 300, "5:00"⟩]

/-- C7, counterexample: in the 630-second scenario the interval candidate
at 300 s lies strictly within 10 s of the chapter candidate at 305 s
("Body" starts at 300, offset by 5), so it does collide and is removed by
deduplication, contrary to the claim that no interval candidate collides
with a chapter candidate. -/
theorem scenario_interval_collides :
    (300 : ℚ) ∈ (intervalPass 630 scenarioChapters [] 60).map
      (fun c => c.seconds) ∧
    (chapterPass 630 scenarioChapters []).map (fun c => c.seconds) =
      [5, 305] ∧
    |(300 : ℚ) - 305| < 10 ∧
    (300 : ℚ) ∉ (dedupedChron 630 scenarioChapters 60 []).map
      (fun c => c.seconds) := by
  refine ⟨?_, ?_, ?_, ?_⟩ <;> with_unfolding_all decide

/-- C7, amended: the scenario yields chapter candidates at 5 s and 305 s
and interval candidates at 60, 120, ..., 600; the interval candidate at
300 s is deduplicated away (it is within 10 s of 305 s), the remaining 11
candidates are sampled down to 10, and the final list is strictly
increasing with length at most 10. -/
theorem scenario_final_list :
    (chapterPass 630 scenarioChapters []).map (fun c => c.seconds) =
      [5, 305] ∧
    (intervalPass 630 scenarioChapters [] 60).map (fun c => c.seconds) =
      [60, 120, 180, 240, 300, 360, 420, 480, 540, 600] ∧
    (dedupedChron 630 scenarioChapters 60 []).map (fun c => c.seconds) =
      [5, 60, 120, 180, 240, 305, 360, 420, 480, 540, 600] ∧
    (pickTimestamps 630 scenarioChapters 10 60 []).map (fun c => c.seconds) =
      [5, 60, 120, 180, 240, 305, 360, 420, 480, 540] := by
  refine ⟨?_, ?_, ?_, ?_⟩ <;> with_unfolding_all decide

/-- Storyboard spec whose chosen level has tileWidth -3: not strictly
positive, yet truthy for the JavaScript validity check. -/
def negativeWidthSpec : String :=
  "http://a/img|90|45|4|2|2|1000|sig#http://b/img$M|-3|45|4|2|2|1000|sig"

/-- C4, counterexample: the validity check of parseStoryboardSpec rejects
only falsy values (NaN and 0), not all non-positive ones — a spec whose
tileWidth parses to -3 is accepted and decodes to a non-empty tile list,
while the claim requires an empty list for any value that is not strictly
positive. -/
theorem parseStoryboardSpec_accepts_negative :
    parseIntJS "-3" = some (-3) ∧ ¬ (0 < (-3 : ℤ)) ∧
    (parseStoryboardSpec negativeWidthSpec).length = 4 ∧
    parseStoryboardSpec negativeWidthSpec ≠ [] := by
  refine ⟨?_, by norm_num, ?_, ?_⟩ <;> with_unfolding_all decide

/-- C4, amended: parseStoryboardSpec is total and returns the empty tile
list, raising no error, whenever validation fails: fewer than 2 levels,
fewer than 8 fields in the chosen (last) level, or any of tileWidth,
tileHeight, tileCount, columns, rows, intervalMs parsing to a falsy value
(0 or NaN); negative values pass the check.  In particular decoding the
empty string and a single-level spec both yield the empty list. -/
theorem parseStoryboardSpec_empty_on_invalid (spec : String)
    (hinvalid :
      (spec.splitOn "#").length < 2 ∨
      (((spec.splitOn "#").getLastD "").splitOn "|").length < 8 ∨
      falsyInt (parseIntJS
        ((((spec.splitOn "#").getLastD "").splitOn "|").getD 1 "")) = true ∨
      falsyInt (parseIntJS
        ((((spec.splitOn "#").getLastD "").splitOn "|").getD 2 "")) = true ∨
      falsyInt (parseIntJS
        ((((spec.splitOn "#").getLastD "").splitOn "|").getD 3 "")) = true ∨
      falsyInt (parseIntJS
        ((((spec.splitOn "#").getLastD "").splitOn "|").getD 4 "")) = true ∨
      falsyInt (parseIntJS
        ((((spec.splitOn "#").getLastD "").splitOn "|").getD 5 "")) = true ∨
      falsyInt (parseIntJS
        ((((spec.splitOn "#").getLastD "").splitOn "|").getD 6 "")) = true) :
    parseStoryboardSpec spec = [] ∧
    parseStoryboardSpec "" = [] ∧
    parseStoryboardSpec "onlyonelevel" = [] := by
  refine ⟨?_, by with_unfolding_all decide, by with_unfolding_all decide⟩
  simp only [parseStoryboardSpec]
  split
  · rfl
  · next h1 =>
    split
    · rfl
    · next h2 =>
      split
      · rfl
      · next h3 =>
        exfalso
        rw [not_lt] at h1 h2
        simp only [Bool.or_eq_true, not_or] at h3
        obtain ⟨⟨⟨⟨⟨hw, hh⟩, hcnt⟩, hco⟩, hr⟩, him⟩ := h3
        rcases hinvalid with h | h | h | h | h | h | h | h
        · omega
        · omega
        · exact hw h
        · exact hh h
        · exact hcnt h
        · exact hco h
        · exact hr h
        · exact him h

/-- C4, witness for the amended statement at the empty spec. -/
theorem parseStoryboardSpec_empty_on_invalid_witness :
    parseStoryboardSpec "" = [] ∧
    parseStoryboardSpec "" = [] ∧
    parseStoryboardSpec "onlyonelevel" = [] :=
  parseStoryboardSpec_empty_on_invalid ""
    (Or.inl (by with_unfolding_all decide))

/-- C8: for a decoded level with positive tile dimensions, tile i has
sheetIndex = floor(i / (columns * rows)), position-in-sheet
p = i mod (columns * rows), column p mod columns, row floor(p / columns),
pixel rectangle (col * w, row * h, w, h) and timestamp i * intervalMs; for
columns = 2, rows = 2, tileCount = 4, intervalMs = 1000 the four tiles
have rectangles (0,0), (w,0), (0,h), (w,h) with extents w, h and
timestamps 0, 1000, 2000, 3000. -/
theorem mkTiles_layout (url sigh : String) (w h count cols rows ims : ℤ)
    (i : ℕ) (_hw : 0 < w) (_hh : 0 < h) (_hcols : 0 < cols)
    (_hrows : 0 < rows) (hi : i < count.toNat) :
    (mkTiles url w h count cols rows ims sigh)[i]? =
      some { url := tileUrl url (Int.fdiv (i : ℤ) (cols * rows)) sigh
             tileRect := { x := Int.emod (Int.emod (i : ℤ) (cols * rows)) cols * w
                           y := Int.fdiv (Int.emod (i : ℤ) (cols * rows)) cols * h
                           w := w
                           h := h }
             timestampMs := (i : ℤ) * ims } ∧
    (mkTiles url w h 4 2 2 1000 sigh).map (fun t => t.tileRect) =
      [⟨0, 0, w, h⟩, ⟨w, 0, w, h⟩, ⟨0, h, w, h⟩, ⟨w, h, w, h⟩] ∧
    (mkTiles url w h 4 2 2 1000 sigh).map (fun t => t.timestampMs) =
      [0, 1000, 2000, 3000] := by
  refine ⟨?_, ?_, ?_⟩
  · simp only [mkTiles]
    rw [List.getElem?_map, List.getElem?_range hi]
    rfl
  · have h4 : List.range (Int.toNat 4) = [0, 1, 2, 3] := by decide
    have hf1 : Int.fdiv 1 2 = 0 := by decide
    have hf3 : Int.fdiv 3 2 = 1 := by decide
    simp only [mkTiles, h4, List.map_cons, List.map_nil]
    norm_num [hf1, hf3]
  · have h4 : List.range (Int.toNat 4) = [0, 1, 2, 3] := by decide
    simp only [mkTiles, h4, List.map_cons, List.map_nil]
    norm_num

/-- C8, witness at a concrete 160 by 90 storyboard level, tile index 2. -/
theorem mkTiles_layout_witness :
    (mkTiles "http://t/img$M" 160 90 4 2 2 1000 "sig")[2]? =
      some { url := tileUrl "http://t/img$M"
               (Int.fdiv ((2 : ℕ) : ℤ) (2 * 2)) "sig"
             tileRect := { x := Int.emod (Int.emod ((2 : ℕ) : ℤ) (2 * 2)) 2 * 160
                           y := Int.fdiv (Int.emod ((2 : ℕ) : ℤ) (2 * 2)) 2 * 90
                           w := 160
                           h := 90 }
             timestampMs := ((2 : ℕ) : ℤ) * 1000 } ∧
    (mkTiles "http://t/img$M" 160 90 4 2 2 1000 "sig").map
      (fun t => t.tileRect) =
      [⟨0, 0, 160, 90⟩, ⟨160, 0, 160, 90⟩, ⟨0, 90, 160, 90⟩,
        ⟨160, 90, 160, 90⟩] ∧
    (mkTiles "http://t/img$M" 160 90 4 2 2 1000 "sig").map
      (fun t => t.timestampMs) = [0, 1000, 2000, 3000] :=
  mkTiles_layout "http://t/img$M" "sig" 160 90 4 2 2 1000 2
    (by decide) (by decide) (by decide) (by decide) (by decide)
